import Mathlib

/-!
Verification of `scripts/hf_point.py` (HF-radar ocean-current point
pipeline).  Python strings are modelled as lists of characters, the HTTP
transport as an oracle from attempt index to outcome, Python floats as
real numbers, and the numeric-string parser `float(...)` as an explicit
function parameter `pf`.
-/

set_option autoImplicit false

namespace HfPoint

/-! ### Configuration constants (the `Config` block of the script) -/

/-- `LAT0 = 37.7477` -/
noncomputable def LAT0 : ℝ := 37.7477

/-- `LON0 = -122.3020` -/
noncomputable def LON0 : ℝ := -122.3020

/-- `BOX_KM = 12` -/
noncomputable def BOX_KM : ℝ := 12

/-- `RETRIES = 5` -/
def RETRIES : Nat := 5

/-- `RETRY_SLEEP = 6` (seconds) -/
def RETRY_SLEEP : Nat := 6

/-! ### Character/string primitives -/

/-- Whitespace test backing the model of `str.strip()`. -/
def isSpaceChar (c : Char) : Bool :=
  c = ' ' || c = '\t' || c = '\n' || c = '\r'

/-- Model of `str.strip()`: drop leading and trailing whitespace. -/
def trimChars (l : List Char) : List Char :=
  ((l.dropWhile isSpaceChar).reverse.dropWhile isSpaceChar).reverse

/-! ### RetryingFetcher (`fetch_csv`, script lines 47-62) -/

/-- Outcome of one `requests.get` call: a status/body response, or a
`requests.RequestException`. -/
inductive HttpOutcome where
  | ok (status : Nat) (body : List Char)
  | netError

/-- What `fetch_csv` did on a run: the text it returned, how many
`requests.get` calls it made, and the `time.sleep` durations (seconds)
it performed, in order. -/
structure FetchTrace where
  result : List Char
  attempts : Nat
  sleeps : List Nat

/-- How the body of the `fetch_csv` loop reacts to one attempt:
return a body, sleep-and-continue, or give up with the empty string. -/
inductive FetchClass where
  | success (body : List Char)
  | retry
  | fail

/-- Classification of one attempt, mirroring the branch order inside the
loop of `fetch_csv`: a 200 response with non-blank body returns it; a
status of 429 or at least 500, or a network exception, sleeps and
continues; any other response returns the empty string. -/
def classify : HttpOutcome → FetchClass
  | .netError => .retry
  | .ok s body =>
      if s = 200 ∧ trimChars body ≠ [] then .success body
      else if 500 ≤ s ∨ s = 429 then .retry
      else .fail

/-- The retry loop of `fetch_csv` (`for i in range(RETRIES + 1)`):
`i` is the loop variable, the second argument the remaining iteration
count.  Falling out of the loop returns the empty string. -/
def fetchLoop (resp : Nat → HttpOutcome) : Nat → Nat → FetchTrace
  | _, 0 => ⟨[], 0, []⟩
  | i, fuel + 1 =>
      match classify (resp i) with
      | .success b => ⟨b, 1, []⟩
      | .fail => ⟨[], 1, []⟩
      | .retry =>
          let t := fetchLoop resp (i + 1) fuel
          ⟨t.result, t.attempts + 1, RETRY_SLEEP * (i + 1) :: t.sleeps⟩

/-- Model of `fetch_csv`: `resp i` is the outcome of the `i`-th HTTP
attempt; the query parameters are fixed within one run and elided. -/
def fetch_csv (resp : Nat → HttpOutcome) : FetchTrace :=
  fetchLoop resp 0 (RETRIES + 1)

/-- The backoff sleeps produced by `k` consecutive retried attempts whose
loop indices start at `i`: `RETRY_SLEEP * (i+1), ..., RETRY_SLEEP * (i+k)`. -/
def backoffSeg (i k : Nat) : List Nat :=
  (List.range k).map (fun j => RETRY_SLEEP * (i + j + 1))

/-- Responses used by concrete evaluations: always HTTP 429. -/
def all429 : Nat → HttpOutcome := fun _ => .ok 429 []

/-- Responses used by concrete evaluations: always a network exception. -/
def allNetErr : Nat → HttpOutcome := fun _ => .netError

/-- Responses used by concrete evaluations: always HTTP 404. -/
def all404 : Nat → HttpOutcome := fun _ => .ok 404 []

/-- Responses used by concrete evaluations: always HTTP 200 with a
whitespace-only body. -/
def allBlank200 : Nat → HttpOutcome := fun _ => .ok 200 [' ']

/-! ### TabularParser (`parse_rows`, script lines 64-86) -/

/-- Split a character list at every occurrence of `sep`; the separators
are dropped and `n` separators give `n + 1` pieces. -/
def splitOnChar (sep : Char) : List Char → List (List Char)
  | [] => [[]]
  | c :: cs =>
      if c = sep then [] :: splitOnChar sep cs
      else
        match splitOnChar sep cs with
        | [] => [[c]]
        | f :: rest => (c :: f) :: rest

/-- Model of `str.splitlines()` as splitting at newline characters.
(Python yields no final empty piece after a trailing newline; such a
piece is blank, so the blank-line filter of `parse_rows` makes the
difference unobservable.) -/
def splitLinesChars (text : List Char) : List (List Char) :=
  splitOnChar '\n' text

/-- `ln.startswith("#")`. -/
def startsHash : List Char → Bool
  | [] => false
  | c :: _ => c = '#'

/-- The line-cleaning comprehension of `parse_rows`: strip every line and
keep the non-blank ones that do not start with the comment marker. -/
def stripLines (text : List Char) : List (List Char) :=
  ((splitLinesChars text).map trimChars).filter
    (fun l => !l.isEmpty && !startsHash l)

/-- One parsed sample row, the dict built in `parse_rows`: timestamp kept
as text, latitude/longitude in degrees, `u`/`v` velocity components. -/
structure SampleRow where
  time : List Char
  lat : ℝ
  lon : ℝ
  u : ℝ
  v : ℝ

/-- The row loop of `parse_rows`: a record with at least 5 fields whose
latitude, longitude, u and v fields all parse numerically (Python
`float(...)`, modelled by the parameter `pf`) contributes a row built
from its first five fields; every other record is skipped (`continue`
for short records, `except ValueError: pass` for numeric failures). -/
def parseRowsLoop (pf : List Char → Option ℝ) :
    List (List Char) → List SampleRow
  | [] => []
  | ln :: rest =>
      match splitOnChar ',' ln with
      | t :: la :: lo :: u :: v :: _ =>
          match pf la, pf lo, pf u, pf v with
          | some a, some o, some x, some y =>
              ⟨t, a, o, x, y⟩ :: parseRowsLoop pf rest
          | _, _, _, _ => parseRowsLoop pf rest
      | _ => parseRowsLoop pf rest

/-- Model of `parse_rows`: clean the lines, return `[]` when at most one
line remains, otherwise discard the header line (`next(rdr, None)`) and
run the row loop over the rest.  `csv.reader` is modelled as splitting
at commas; the upstream CSV is unquoted. -/
def parse_rows (pf : List Char → Option ℝ) (text : List Char) :
    List SampleRow :=
  let lines := stripLines text
  if lines.length ≤ 1 then []
  else
    match lines with
    | [] => []
    | _header :: dataLines => parseRowsLoop pf dataLines

/-- Spec-side line cleaning for C6, from the claim's words: discard blank
lines and comment-marker lines, stripping the survivors. -/
def specLines (text : List Char) : List (List Char) :=
  ((splitLinesChars text).filter
    (fun l => !(trimChars l).isEmpty && !startsHash (trimChars l))).map
    trimChars

/-- Spec-side record validation for C6, from the claim's words: a line
with fewer than 5 fields is dropped, a line whose latitude, longitude, u
or v field fails numeric parsing is dropped, and a surviving line yields
the row (timestamp, lat, lon, u, v) from its first five fields. -/
def specRowOf (pf : List Char → Option ℝ) (ln : List Char) :
    Option SampleRow :=
  let fs := splitOnChar ',' ln
  if fs.length < 5 then none
  else
    match pf (fs.getD 1 []), pf (fs.getD 2 []),
          pf (fs.getD 3 []), pf (fs.getD 4 []) with
    | some a, some o, some x, some y => some ⟨fs.getD 0 [], a, o, x, y⟩
    | _, _, _, _ => none

/-- Spec-side parser for C6: after cleaning, at most one remaining line
gives the empty sequence; otherwise the first remaining line is the
header, discarded without validation, and the later lines pass through
`specRowOf` in input order. -/
def parseRowsSpec (pf : List Char → Option ℝ) (text : List Char) :
    List SampleRow :=
  match specLines text with
  | [] => []
  | [_] => []
  | _header :: dataLines => dataLines.filterMap (specRowOf pf)

/-! ### Geometry (`build_bbox` and `haversine_m`, script lines 34-45) -/

/-- `math.radians(x)`. -/
noncomputable def radiansOf (x : ℝ) : ℝ := x * Real.pi / 180

/-- `build_bbox(lat0, lon0, box_km)`, returning `(lat1, lon1, lat2, lon2)`. -/
noncomputable def build_bbox (lat0 lon0 box_km : ℝ) : ℝ × ℝ × ℝ × ℝ :=
  let dlat := box_km / 111.0
  let dlon := box_km / (111.0 * Real.cos (radiansOf lat0))
  (lat0 - dlat, lon0 - dlon, lat0 + dlat, lon0 + dlon)

/-- `haversine_m`: great-circle distance in meters on a sphere of radius
6,371,000 m. -/
noncomputable def haversine_m (lat1 lon1 lat2 lon2 : ℝ) : ℝ :=
  let R : ℝ := 6371000.0
  let p1 := radiansOf lat1
  let p2 := radiansOf lat2
  let dlat := radiansOf (lat2 - lat1)
  let dlon := radiansOf (lon2 - lon1)
  let a := Real.sin (dlat / 2) ^ 2 +
    Real.cos p1 * Real.cos p2 * Real.sin (dlon / 2) ^ 2
  2 * R * Real.arcsin (Real.sqrt a)

/-! ### NearestPointSelector (`min(rows, key=...)` and the vector
derivation, script lines 146-150) -/

/-- Python `min(xs, key=k)` scanning with an accumulator: the accumulator
is replaced only when the new key is strictly smaller, so on ties the
first-seen element wins. -/
def pyMinBy {α β : Type} [LinearOrder β] (k : α → β) : α → List α → α
  | best, [] => best
  | best, x :: xs =>
      if k x < k best then pyMinBy k x xs else pyMinBy k best xs

/-- `min(rows, key=k)`: `none` on the empty list, where Python raises
`ValueError` (the caller checks non-emptiness first). -/
def pyMin {α β : Type} [LinearOrder β] (k : α → β) : List α → Option α
  | [] => none
  | x :: xs => some (pyMinBy k x xs)

/-- The nearest-row selection in `main`:
`min(rows, key=lambda r: haversine_m(lat0, lon0, r["lat"], r["lon"]))`. -/
noncomputable def selectNearest (lat0 lon0 : ℝ) (rows : List SampleRow) :
    Option SampleRow :=
  pyMin (fun r => haversine_m lat0 lon0 r.lat r.lon) rows

/-- `math.hypot(u, v)`. -/
noncomputable def speedOf (u v : ℝ) : ℝ := Real.sqrt (u ^ 2 + v ^ 2)

/-- `math.degrees(math.atan2(u, v))`: `atan2(y, x)` is the argument of
the complex number `x + y i`, here `v + u i`. -/
noncomputable def rawBearing (u v : ℝ) : ℝ :=
  Complex.arg (⟨v, u⟩ : Complex) * 180 / Real.pi

/-- The bearing normalization in `main`: `if bearing < 0: bearing += 360.0`. -/
noncomputable def normBearing (b : ℝ) : ℝ := if b < 0 then b + 360 else b

/-- The bearing `main` reports for components `(u, v)`. -/
noncomputable def bearingOf (u v : ℝ) : ℝ := normBearing (rawBearing u v)

/-! ### Persisted artifact and `main` (script lines 88-165) -/

/-- JSON values; numbers are modelled as reals, as produced by
`json.load` and consumed by `json.dump`. -/
inductive Json where
  | null
  | bool (b : Bool)
  | num (x : ℝ)
  | str (s : String)
  | arr (xs : List Json)
  | obj (fields : List (String × Json))

/-- Lookup of a top-level field in a JSON object's field list. -/
def lookupField : List (String × Json) → String → Option Json
  | [], _ => none
  | (k, v) :: rest, key => if k = key then some v else lookupField rest key

/-- Top-level field access on a JSON value. -/
def Json.getField : Json → String → Option Json
  | .obj fs, key => lookupField fs key
  | _, _ => none

/-- State of the output file `assets/data/hf_point.json` before a run. -/
inductive FileState where
  | absent
  | malformed
  | valid (artifact : Json)

/-- How a run of `main` ends: exactly one artifact written, or an
uncaught exception with nothing written. -/
inductive RunResult where
  | wrote (artifact : Json)
  | crashed

/-- The keep-previous fallback shared by the two no-data paths of
`main`: re-dump the existing artifact verbatim; on `FileNotFoundError`
write the diagnostic record instead; a present-but-malformed file makes
`json.load` raise `json.JSONDecodeError`, which the
`except FileNotFoundError` clause does not catch. -/
def fallbackWrite : FileState → Json → RunResult
  | .valid a, _ => .wrote a
  | .absent, out => .wrote out
  | .malformed, _ => .crashed

/-- The `out` diagnostic record built near the top of `main.  The
formatted time-range strings are parameters. -/
noncomputable def outRecord (fromS toS : String) : Json :=
  .obj [("target", .obj [("lat", .num LAT0), ("lon", .num LON0)]),
        ("bbox", .obj [("lat1", .num (build_bbox LAT0 LON0 BOX_KM).1),
                       ("lon1", .num (build_bbox LAT0 LON0 BOX_KM).2.1),
                       ("lat2", .num (build_bbox LAT0 LON0 BOX_KM).2.2.1),
                       ("lon2", .num (build_bbox LAT0 LON0 BOX_KM).2.2.2)]),
        ("from", .str fromS), ("to", .str toS),
        ("uom", .str "cms"), ("hours", .num 6), ("n", .num 0)]

/-- The success record built at the bottom of `main` from the nearest
row. -/
noncomputable def resultRecord (fromS toS : String) (near : SampleRow) :
    Json :=
  .obj [("target", .obj [("lat", .num LAT0), ("lon", .num LON0)]),
        ("nearest", .obj [("time", .str (String.mk near.time)),
                          ("lat", .num near.lat), ("lon", .num near.lon),
                          ("u", .num near.u), ("v", .num near.v)]),
        ("from", .str fromS), ("to", .str toS),
        ("u", .num near.u), ("v", .num near.v),
        ("speed", .num (speedOf near.u near.v)),
        ("bearing", .num (bearingOf near.u near.v)),
        ("uom", .str "cms"), ("n", .num 1)]

/-- Model of `main`: `resp` supplies the HTTP outcomes, `pf` the numeric
parser, `fromS`/`toS` the formatted time range, `file` the prior state
of the output path.  File-system effects are collapsed into the returned
`RunResult`. -/
noncomputable def main (pf : List Char → Option ℝ)
    (resp : Nat → HttpOutcome) (fromS toS : String) (file : FileState) :
    RunResult :=
  let csvText := (fetch_csv resp).result
  let out := outRecord fromS toS
  if csvText.isEmpty then fallbackWrite file out
  else
    match parse_rows pf csvText with
    | [] => fallbackWrite file out
    | r :: rs =>
        RunResult.wrote (resultRecord fromS toS
          (pyMinBy (fun q => haversine_m LAT0 LON0 q.lat q.lon) r rs))

/-! ### TierEscalator (spec 4.5; the tiered near-duplicate job is not
under `src/`) -/

/-- One query tier: time window in hours and box size in km. -/
structure QueryTier where
  hoursWindow : Int
  boxKm : ℝ

/-- `round_down_hour` on minutes since the epoch. -/
def floorHour (now : Int) : Int := (now / 60) * 60

/-- The query parameters one tier produces: absolute time range in
minutes and the bounding box. -/
structure QueryParams where
  fromT : Int
  toT : Int
  bbox : ℝ × ℝ × ℝ × ℝ

/-- Modelled from the spec: the per-tier query computation of the
TierEscalator (spec 4.5), whose implementation (the repository's second
near-duplicate job) is not under `src/` — `to = floor(now, 1h)`,
`from = to - hoursWindow`, bounding box via 4.1. -/
noncomputable def paramsFor (now : Int) (lat0 lon0 : ℝ) (t : QueryTier) :
    QueryParams :=
  ⟨floorHour now - 60 * t.hoursWindow, floorHour now,
   build_bbox lat0 lon0 t.boxKm⟩

/-- A per-tier "no rows" diagnostic: the tier and its query parameters. -/
structure TierDiag where
  tier : QueryTier
  params : QueryParams

/-- Outcome of the escalation: success carries the non-empty parsed rows,
the tier used and its exact query parameters; failure carries the last
attempted tier's diagnostic (`none` when no tier was configured). -/
inductive TierOutcome where
  | success (rows : List SampleRow) (tierUsed : QueryTier)
      (params : QueryParams)
  | failure (lastDiag : Option TierDiag)

/-- Modelled from the spec: the TierEscalator loop (spec 4.5), whose
implementation is not under `src/`.  For each tier in declared order:
compute the query parameters, fetch via the RetryingFetcher (4.2, over
the per-query transport oracle), parse via 4.3; stop at the first tier
whose parse is non-empty, else record the tier's diagnostic and
continue; on exhaustion fail with the last diagnostic.  The second
component lists the attempted tiers in order. -/
noncomputable def tierEscalate (pf : List Char → Option ℝ)
    (transport : QueryParams → Nat → HttpOutcome) (now : Int)
    (lat0 lon0 : ℝ) :
    List QueryTier → Option TierDiag → TierOutcome × List QueryTier
  | [], lastDiag => (.failure lastDiag, [])
  | t :: rest, _lastDiag =>
      let p := paramsFor now lat0 lon0 t
      match parse_rows pf (fetch_csv (transport p)).result with
      | [] =>
          let r := tierEscalate pf transport now lat0 lon0 rest (some ⟨t, p⟩)
          (r.1, t :: r.2)
      | row :: rows => (.success (row :: rows) t p, [t])

/-- Modelled from the spec: run the TierEscalator over the configured
tier list with no prior diagnostic. -/
noncomputable def runTiers (pf : List Char → Option ℝ)
    (transport : QueryParams → Nat → HttpOutcome) (now : Int)
    (lat0 lon0 : ℝ) (tiers : List QueryTier) :
    TierOutcome × List QueryTier :=
  tierEscalate pf transport now lat0 lon0 tiers none

/-- The rows a given tier yields: fetch via 4.2, parse via 4.3. -/
noncomputable def rowsFor (pf : List Char → Option ℝ)
    (transport : QueryParams → Nat → HttpOutcome) (now : Int)
    (lat0 lon0 : ℝ) (t : QueryTier) : List SampleRow :=
  parse_rows pf (fetch_csv (transport (paramsFor now lat0 lon0 t))).result

/-! ### Concrete fixtures for evaluation -/

/-- Numeric-parser fixture: every field parses as 1.0. -/
noncomputable def pfUnit : List Char → Option ℝ := fun _ => some 1

/-- A prior-artifact fixture whose `generated_at` is 5. -/
noncomputable def priorArtifact : Json :=
  .obj [("n", .num 1), ("generated_at", .num 5)]

/-- A single-row fixture at the origin with components (1, 1). -/
noncomputable def rowA : SampleRow := ⟨['t'], 0, 0, 1, 1⟩

/-- Tier fixture: 6-hour window, 24 km box. -/
noncomputable def tier6 : QueryTier := ⟨6, 24⟩

/-- Tier fixture: 12-hour window, 24 km box. -/
noncomputable def tier12 : QueryTier := ⟨12, 24⟩

/-- A two-line CSV fixture: a header line and one 5-field data row. -/
def csvFix : List Char :=
  ['h', '\n', 't', ',', '1', ',', '1', ',', '1', ',', '1']

/-- Transport fixture: the 6-hour query (from-time -360 minutes) answers
404; every other query answers 200 with `csvFix`. -/
noncomputable def transportT : QueryParams → Nat → HttpOutcome :=
  fun p _ =>
    if p.fromT = floorHour 0 - 60 * 6 then .ok 404 [] else .ok 200 csvFix

end HfPoint

namespace HfPoint

/-! ### Lemmas about the fetch loop -/

theorem classify_eq_success {o : HttpOutcome} {b : List Char}
    (h : classify o = .success b) :
    o = .ok 200 b ∧ trimChars b ≠ [] := by
  cases o with
  | netError => simp [classify] at h
  | ok s body =>
      simp only [classify] at h
      split at h
      · rename_i hc
        cases h
        exact ⟨by rw [hc.1], hc.2⟩
      · split at h <;> simp at h

theorem classify_retry_of_status {s : Nat} {b : List Char}
    (h : s = 429 ∨ 500 ≤ s) : classify (.ok s b) = .retry := by
  have hne : ¬ s = 200 := by rcases h with h | h <;> omega
  simp only [classify]
  rw [if_neg (by exact fun hc => hne hc.1), if_pos (Or.symm h)]

theorem classify_fail_of_status {s : Nat} {b : List Char}
    (h200 : ¬ (s = 200 ∧ trimChars b ≠ [])) (h5 : ¬ 500 ≤ s)
    (h429 : s ≠ 429) : classify (.ok s b) = .fail := by
  simp only [classify]
  rw [if_neg h200, if_neg (by exact fun hc => hc.elim h5 h429)]

theorem fetchLoop_step_retry (resp : Nat → HttpOutcome) (i fuel : Nat)
    (h : classify (resp i) = .retry) :
    fetchLoop resp i (fuel + 1) =
      ⟨(fetchLoop resp (i + 1) fuel).result,
       (fetchLoop resp (i + 1) fuel).attempts + 1,
       RETRY_SLEEP * (i + 1) :: (fetchLoop resp (i + 1) fuel).sleeps⟩ := by
  simp [fetchLoop, h]

theorem fetchLoop_step_fail (resp : Nat → HttpOutcome) (i fuel : Nat)
    (h : classify (resp i) = .fail) :
    fetchLoop resp i (fuel + 1) = ⟨[], 1, []⟩ := by
  simp [fetchLoop, h]

theorem fetchLoop_step_success (resp : Nat → HttpOutcome) (i fuel : Nat)
    (b : List Char) (h : classify (resp i) = .success b) :
    fetchLoop resp i (fuel + 1) = ⟨b, 1, []⟩ := by
  simp [fetchLoop, h]

/-- Running the loop across `k` consecutive retried attempts adds `k`
attempts and the corresponding linearly-growing sleeps. -/
theorem fetchLoop_retry_seg (resp : Nat → HttpOutcome) :
    ∀ (k i fuel : Nat), (∀ j, j < k → classify (resp (i + j)) = .retry) →
    fetchLoop resp i (k + fuel) =
      ⟨(fetchLoop resp (i + k) fuel).result,
       (fetchLoop resp (i + k) fuel).attempts + k,
       backoffSeg i k ++ (fetchLoop resp (i + k) fuel).sleeps⟩ := by
  intro k
  induction k with
  | zero =>
      intro i fuel _
      simp [backoffSeg]
  | succ k ih =>
      intro i fuel h
      have h0 : classify (resp i) = .retry := by
        have := h 0 (Nat.succ_pos k)
        simpa using this
      have hrest : ∀ j, j < k → classify (resp (i + 1 + j)) = .retry := by
        intro j hj
        have := h (j + 1) (by omega)
        have harith : i + (j + 1) = i + 1 + j := by omega
        rwa [harith] at this
      have hfuel : k + 1 + fuel = (k + fuel) + 1 := by omega
      rw [hfuel, fetchLoop_step_retry resp i (k + fuel) h0, ih (i + 1) fuel hrest]
      have harith2 : i + 1 + k = i + (k + 1) := by omega
      rw [harith2]
      have hseg : backoffSeg i (k + 1) =
          RETRY_SLEEP * (i + 1) :: backoffSeg (i + 1) k := by
        simp only [backoffSeg, List.range_succ_eq_map, List.map_cons,
          List.map_map]
        refine congrArg₂ List.cons
          (congrArg (fun n => RETRY_SLEEP * n) (by omega)) ?_
        apply List.map_congr_left
        intro j _
        simp only [Function.comp]
        exact congrArg (fun n => RETRY_SLEEP * n) (by omega)
      rw [hseg]
      simp only [FetchTrace.mk.injEq, List.cons_append]
      refine ⟨trivial, by omega, trivial⟩

/-- If the first `i` attempts are all retried and attempt `i` is
classified non-retryable-failure, `fetch_csv` returns the empty string
after exactly `i + 1` HTTP calls with only the earlier backoffs slept. -/
theorem fetch_fail_after_retries (resp : Nat → HttpOutcome) (i : Nat)
    (hi : i ≤ RETRIES) (hpre : ∀ j, j < i → classify (resp j) = .retry)
    (hfail : classify (resp i) = .fail) :
    fetch_csv resp = ⟨[], i + 1, backoffSeg 0 i⟩ := by
  have hfuel : RETRIES + 1 = i + (RETRIES - i + 1) := by omega
  have hpre' : ∀ j, j < i → classify (resp (0 + j)) = .retry := by
    intro j hj
    simpa using hpre j hj
  rw [fetch_csv, hfuel, fetchLoop_retry_seg resp i 0 (RETRIES - i + 1) hpre']
  rw [Nat.zero_add, fetchLoop_step_fail resp i (RETRIES - i) hfail]
  simp [FetchTrace.mk.injEq, Nat.add_comm]

/-- The loop's result is either the empty string or the non-blank body of
some 200 response among the attempts. -/
theorem fetchLoop_result_cases (resp : Nat → HttpOutcome) :
    ∀ fuel i, (fetchLoop resp i fuel).result = [] ∨
      ∃ j b, i ≤ j ∧ resp j = .ok 200 b ∧ trimChars b ≠ [] ∧
        (fetchLoop resp i fuel).result = b := by
  intro fuel
  induction fuel with
  | zero => intro i; left; rfl
  | succ fuel ih =>
      intro i
      cases hc : classify (resp i) with
      | success b =>
          right
          obtain ⟨ho, hb⟩ := classify_eq_success hc
          exact ⟨i, b, le_refl i, ho, hb,
            by rw [fetchLoop_step_success resp i fuel b hc]⟩
      | fail => left; rw [fetchLoop_step_fail resp i fuel hc]
      | retry =>
          rw [fetchLoop_step_retry resp i fuel hc]
          rcases ih (i + 1) with h | ⟨j, b, hij, ho, hb, hr⟩
          · left; exact h
          · right; exact ⟨j, b, by omega, ho, hb, hr⟩

/-- C4 (amended): when every attempt answers 429 or a status at least 500,
`fetch_csv` sleeps `RETRY_SLEEP` times the 1-based attempt number after
each failed attempt — a linearly growing backoff — and returns the empty
string after exactly `RETRIES + 1` HTTP calls (the initial attempt plus
`RETRIES` retries), not after `RETRIES` calls. -/
theorem c4_fetch_exhaustion (resp : Nat → HttpOutcome)
    (h : ∀ i, i ≤ RETRIES → ∃ s b, resp i = .ok s b ∧ (s = 429 ∨ 500 ≤ s)) :
    fetch_csv resp = ⟨[], RETRIES + 1, backoffSeg 0 (RETRIES + 1)⟩ ∧
    backoffSeg 0 (RETRIES + 1) =
      [RETRY_SLEEP * 1, RETRY_SLEEP * 2, RETRY_SLEEP * 3,
       RETRY_SLEEP * 4, RETRY_SLEEP * 5, RETRY_SLEEP * 6] := by
  constructor
  · have hall : ∀ j, j < RETRIES + 1 → classify (resp (0 + j)) = .retry := by
      intro j hj
      obtain ⟨s, b, ho, hs⟩ := h j (by omega)
      rw [Nat.zero_add, ho]
      exact classify_retry_of_status hs
    have hseg := fetchLoop_retry_seg resp (RETRIES + 1) 0 0 hall
    refine hseg.trans ?_
    simp [fetchLoop]
  · rfl

/-- C4 counterexample to the claim as stated: with every attempt answering
429 the fetcher makes `RETRIES + 1 = 6` HTTP calls before returning the
empty string, not "exactly the RETRIES constant" (5) as claimed. -/
theorem c4_counterexample :
    (fetch_csv all429).result = [] ∧
    (fetch_csv all429).attempts = RETRIES + 1 ∧
    RETRIES + 1 ≠ RETRIES := by
  refine ⟨rfl, rfl, by decide⟩

/-- C4 witness: the amended exhaustion theorem applied to the all-429
response oracle. -/
theorem c4_witness :
    fetch_csv all429 = ⟨[], RETRIES + 1, backoffSeg 0 (RETRIES + 1)⟩ :=
  (c4_fetch_exhaustion all429 (fun _ _ => ⟨429, [], rfl, Or.inl rfl⟩)).1

/-- C5: `fetch_csv` never propagates an error — it always returns a
string, namely either the empty string or the non-blank body of a 200
response; when every attempt raises a network-level exception it returns
the empty string; and a status other than 200/429/at-least-500, reached
after only retried attempts, yields the empty string at once, with no
further attempt and no further backoff. -/
theorem c5_fetch_never_raises :
    (∀ resp, (fetch_csv resp).result = [] ∨
       ∃ j b, resp j = .ok 200 b ∧ trimChars b ≠ [] ∧
         (fetch_csv resp).result = b) ∧
    (∀ resp, (∀ i, i ≤ RETRIES → resp i = .netError) →
       (fetch_csv resp).result = []) ∧
    (∀ resp i s b, i ≤ RETRIES → (∀ j, j < i → classify (resp j) = .retry) →
       resp i = .ok s b → s ≠ 200 → s < 500 → s ≠ 429 →
       fetch_csv resp = ⟨[], i + 1, backoffSeg 0 i⟩) := by
  refine ⟨?_, ?_, ?_⟩
  · intro resp
    rcases fetchLoop_result_cases resp (RETRIES + 1) 0 with h | ⟨j, b, _, ho, hb, hr⟩
    · exact Or.inl h
    · exact Or.inr ⟨j, b, ho, hb, hr⟩
  · intro resp h
    have hall : ∀ j, j < RETRIES + 1 → classify (resp (0 + j)) = .retry := by
      intro j hj
      rw [Nat.zero_add, h j (by omega)]
      rfl
    have hseg := fetchLoop_retry_seg resp (RETRIES + 1) 0 0 hall
    exact (congrArg FetchTrace.result hseg).trans rfl
  · intro resp i s b hi hpre ho h200 h500 h429
    apply fetch_fail_after_retries resp i hi hpre
    rw [ho]
    exact classify_fail_of_status (fun hc => h200 hc.1) (by omega) h429

/-- C5 witness: all-network-error responses give the empty string, and an
immediate 404 gives the empty string after a single attempt. -/
theorem c5_witness :
    (fetch_csv allNetErr).result = [] ∧
    fetch_csv all404 = ⟨[], 0 + 1, backoffSeg 0 0⟩ :=
  ⟨c5_fetch_never_raises.2.1 allNetErr (fun _ _ => rfl),
   c5_fetch_never_raises.2.2 all404 0 404 []
     (by decide) (fun j hj => absurd hj (Nat.not_lt_zero j))
     rfl (by decide) (by decide) (by decide)⟩

/-- C10: a 200 response whose body is empty or whitespace-only fails the
non-blank test, falls past the retryable-status check (200 is neither 429
nor at least 500), and hits the non-retryable `return ""`: the fetcher
returns the empty string with no further attempt and no further backoff. -/
theorem c10_blank_200_immediate_empty (resp : Nat → HttpOutcome)
    (i : Nat) (b : List Char) (hi : i ≤ RETRIES)
    (hpre : ∀ j, j < i → classify (resp j) = .retry)
    (ho : resp i = .ok 200 b) (hblank : trimChars b = []) :
    fetch_csv resp = ⟨[], i + 1, backoffSeg 0 i⟩ := by
  apply fetch_fail_after_retries resp i hi hpre
  rw [ho]
  exact classify_fail_of_status (fun hc => hc.2 hblank) (by omega) (by omega)

/-- C10 witness: a first-attempt 200 with whitespace-only body returns the
empty string after one call and no sleeps. -/
theorem c10_witness :
    fetch_csv allBlank200 = ⟨[], 0 + 1, backoffSeg 0 0⟩ :=
  c10_blank_200_immediate_empty allBlank200 0 [' ']
    (by decide) (fun j hj => absurd hj (Nat.not_lt_zero j)) rfl (by decide)

/-! ### Lemmas about the parser -/

theorem filter_after_map {α β : Type} (f : α → β) (p : β → Bool) :
    ∀ l : List α,
      (l.map f).filter p = (l.filter (fun a => p (f a))).map f := by
  intro l
  induction l with
  | nil => rfl
  | cons a l ih =>
      cases h : p (f a) <;>
        simp [List.filter_cons, List.map_cons, h, ih]

theorem specLines_eq_stripLines (text : List Char) :
    specLines text = stripLines text := by
  simp only [specLines, stripLines]
  exact (filter_after_map trimChars
    (fun l => !l.isEmpty && !startsHash l) (splitLinesChars text)).symm

theorem parseRowsLoop_cons (pf : List Char → Option ℝ) (ln : List Char)
    (rest : List (List Char)) :
    parseRowsLoop pf (ln :: rest) =
      match specRowOf pf ln with
      | some r => r :: parseRowsLoop pf rest
      | none => parseRowsLoop pf rest := by
  cases hs : splitOnChar ',' ln with
  | nil => simp [parseRowsLoop, specRowOf, hs]
  | cons t fs1 =>
    cases fs1 with
    | nil => simp [parseRowsLoop, specRowOf, hs]
    | cons la fs2 =>
      cases fs2 with
      | nil => simp [parseRowsLoop, specRowOf, hs]
      | cons lo fs3 =>
        cases fs3 with
        | nil => simp [parseRowsLoop, specRowOf, hs]
        | cons u fs4 =>
          cases fs4 with
          | nil => simp [parseRowsLoop, specRowOf, hs]
          | cons v more =>
              simp only [parseRowsLoop, specRowOf, hs]
              rw [if_neg (by simp [List.length_cons])]
              rcases hla : pf la with _ | a <;>
                rcases hlo : pf lo with _ | o <;>
                  rcases hu : pf u with _ | x <;>
                    rcases hv : pf v with _ | y <;>
                      simp [hla, hlo, hu, hv, List.getD_cons_zero,
                        List.getD_cons_succ]

theorem parseRowsLoop_eq_filterMap (pf : List Char → Option ℝ) :
    ∀ ls, parseRowsLoop pf ls = ls.filterMap (specRowOf pf) := by
  intro ls
  induction ls with
  | nil => rfl
  | cons ln rest ih =>
      rw [parseRowsLoop_cons, List.filterMap_cons, ih]
      cases specRowOf pf ln <;> rfl

/-- C6: `parse_rows` is total (it never raises) and agrees with the
claim's description: blank and comment lines are discarded, at most one
remaining line yields the empty sequence, the header is discarded
unvalidated, short records and records with non-numeric
latitude/longitude/u/v are dropped, and each surviving record yields the
row (timestamp, lat, lon, u, v) from its first five fields, in input
order. -/
theorem c6_parse_rows_follows_spec :
    ∀ (pf : List Char → Option ℝ) (text : List Char),
      parse_rows pf text = parseRowsSpec pf text := by
  intro pf text
  have hl : specLines text = stripLines text := specLines_eq_stripLines text
  cases hstrip : stripLines text with
  | nil => simp [parse_rows, parseRowsSpec, hl, hstrip]
  | cons x ls =>
      cases ls with
      | nil => simp [parse_rows, parseRowsSpec, hl, hstrip]
      | cons y rest =>
          simp only [parse_rows, parseRowsSpec, hl, hstrip]
          rw [if_neg (by simp [List.length_cons])]
          exact parseRowsLoop_eq_filterMap pf (y :: rest)

/-! ### Geometry claims -/

/-- C9: for every center and positive radius the bounding box is
axis-aligned and symmetric around the center, with latitude half-width
`r / 111.0` degrees and longitude half-width
`r / (111.0 * cos(radians lat0))` degrees; hence
`lat2 - lat1 = 2 r / 111.0` and both midpoints equal the center. -/
theorem c9_build_bbox_centered (lat0 lon0 r : ℝ) (_hr : 0 < r) :
    ∃ lat1 lon1 lat2 lon2,
      build_bbox lat0 lon0 r = (lat1, lon1, lat2, lon2) ∧
      lat2 - lat1 = 2 * r / 111.0 ∧
      (lat1 + lat2) / 2 = lat0 ∧ (lon1 + lon2) / 2 = lon0 ∧
      lat2 - lat0 = r / 111.0 ∧ lat0 - lat1 = r / 111.0 ∧
      lon2 - lon0 = r / (111.0 * Real.cos (radiansOf lat0)) ∧
      lon0 - lon1 = r / (111.0 * Real.cos (radiansOf lat0)) :=
  ⟨_, _, _, _, rfl, by ring, by ring, by ring, by ring, by ring,
    by ring, by ring⟩

/-- C9 witness: the theorem applied at center (0, 0) and radius 1. -/
theorem c9_witness :
    ∃ lat1 lon1 lat2 lon2,
      build_bbox 0 0 1 = (lat1, lon1, lat2, lon2) ∧
      lat2 - lat1 = 2 * 1 / 111.0 ∧
      (lat1 + lat2) / 2 = 0 ∧ (lon1 + lon2) / 2 = 0 ∧
      lat2 - 0 = 1 / 111.0 ∧ (0 : ℝ) - lat1 = 1 / 111.0 ∧
      lon2 - 0 = 1 / (111.0 * Real.cos (radiansOf 0)) ∧
      (0 : ℝ) - lon1 = 1 / (111.0 * Real.cos (radiansOf 0)) :=
  c9_build_bbox_centered 0 0 1 (by norm_num)

/-! ### Speed and bearing claim -/

/-- C8: the derived speed is the Euclidean norm `sqrt(u^2 + v^2)`; the
derived bearing — degrees of `atan2(u, v)` pushed through the
normalization `+360` when negative — always lies in `[0, 360)`; and the
normalization sends a raw bearing of -10 degrees to 350 degrees. -/
theorem c8_speed_bearing :
    (∀ u v : ℝ, speedOf u v = Real.sqrt (u ^ 2 + v ^ 2)) ∧
    (∀ u v : ℝ, bearingOf u v ∈ Set.Ico (0 : ℝ) 360) ∧
    normBearing (-10) = 350 := by
  refine ⟨fun u v => rfl, ?_, ?_⟩
  · intro u v
    have hπ : (0 : ℝ) < Real.pi := Real.pi_pos
    obtain ⟨hlo, hhi⟩ := Complex.arg_mem_Ioc (⟨v, u⟩ : Complex)
    have hub : rawBearing u v ≤ 180 := by
      rw [rawBearing, div_le_iff hπ]
      nlinarith
    have hlb : -180 < rawBearing u v := by
      rw [rawBearing, lt_div_iff hπ]
      nlinarith
    rw [Set.mem_Ico, bearingOf, normBearing]
    by_cases hneg : rawBearing u v < 0
    · rw [if_pos hneg]
      constructor
      · linarith
      · linarith
    · rw [if_neg hneg]
      push_neg at hneg
      constructor
      · linarith
      · linarith
  · rw [normBearing, if_pos (by norm_num)]
    norm_num

/-! ### Nearest-row selection claim -/

/-- `pyMinBy` returns a key-minimal element of `best :: xs`, and the
element it returns is the first-occurring minimum: everything strictly
before it in the scan order has a strictly larger key. -/
theorem pyMinBy_first_min {α β : Type} [LinearOrder β] (k : α → β) :
    ∀ (xs : List α) (best : α),
      (∀ y ∈ best :: xs, k (pyMinBy k best xs) ≤ k y) ∧
      ∃ pre post, best :: xs = pre ++ pyMinBy k best xs :: post ∧
        ∀ y ∈ pre, k (pyMinBy k best xs) < k y := by
  intro xs
  induction xs with
  | nil =>
      intro best
      refine ⟨?_, [], [], rfl, by intro y hy; simp at hy⟩
      intro y hy
      have : y = best := by simpa using hy
      rw [this]
      exact le_rfl
  | cons x xs ih =>
      intro best
      by_cases h : k x < k best
      · have heq : pyMinBy k best (x :: xs) = pyMinBy k x xs := by
          simp [pyMinBy, h]
        obtain ⟨hmin, pre, post, hsplit, hpre⟩ := ih x
        rw [heq]
        have hmx : k (pyMinBy k x xs) ≤ k x := hmin x (List.mem_cons_self x xs)
        constructor
        · intro y hy
          rcases List.mem_cons.mp hy with rfl | hy2
          · exact le_of_lt (lt_of_le_of_lt hmx h)
          · exact hmin y hy2
        · refine ⟨best :: pre, post, ?_, ?_⟩
          · rw [List.cons_append, ← hsplit]
          · intro y hy
            rcases List.mem_cons.mp hy with rfl | hy2
            · exact lt_of_le_of_lt hmx h
            · exact hpre y hy2
      · have heq : pyMinBy k best (x :: xs) = pyMinBy k best xs := by
          simp [pyMinBy, h]
        obtain ⟨hmin, pre, post, hsplit, hpre⟩ := ih best
        rw [heq]
        have hbx : k best ≤ k x := le_of_not_lt h
        have hmb : k (pyMinBy k best xs) ≤ k best :=
          hmin best (List.mem_cons_self best xs)
        constructor
        · intro y hy
          rcases List.mem_cons.mp hy with rfl | hy2
          · exact hmb
          · rcases List.mem_cons.mp hy2 with rfl | hy3
            · exact le_trans hmb hbx
            · exact hmin y (List.mem_cons.mpr (Or.inr hy3))
        · cases pre with
          | nil =>
              have h1 : best = pyMinBy k best xs := (List.cons_eq_cons.mp
                (by simpa using hsplit)).1
              have h2 : xs = post := (List.cons_eq_cons.mp
                (by simpa using hsplit)).2
              refine ⟨[], x :: post, ?_, by intro y hy; simp at hy⟩
              rw [List.nil_append, ← h1, h2]
          | cons p pre2 =>
              have hsp : best = p ∧ xs = pre2 ++ pyMinBy k best xs :: post :=
                List.cons_eq_cons.mp (by simpa using hsplit)
              have hpb : k (pyMinBy k best xs) < k best := by
                have := hpre p (List.mem_cons_self p pre2)
                rwa [← hsp.1] at this
              refine ⟨best :: x :: pre2, post, ?_, ?_⟩
              · conv_lhs => rw [hsp.2]
                rfl
              · intro y hy
                rcases List.mem_cons.mp hy with rfl | hy2
                · exact hpb
                · rcases List.mem_cons.mp hy2 with rfl | hy3
                  · exact lt_of_lt_of_le hpb hbx
                  · exact hpre y (List.mem_cons.mpr (Or.inr hy3))

/-- C7: on a non-empty row list, `main`'s selection returns a row
attaining the minimum haversine distance (Earth radius 6,371,000 m) to
the target, and when several rows attain the minimum the first-occurring
one is returned: every row before the selected one is strictly farther. -/
theorem c7_nearest_row (lat0 lon0 : ℝ) (rows : List SampleRow)
    (h : rows ≠ []) :
    ∃ r, selectNearest lat0 lon0 rows = some r ∧ r ∈ rows ∧
      (∀ s ∈ rows, haversine_m lat0 lon0 r.lat r.lon ≤
        haversine_m lat0 lon0 s.lat s.lon) ∧
      ∃ pre post, rows = pre ++ r :: post ∧
        ∀ s ∈ pre, haversine_m lat0 lon0 r.lat r.lon <
          haversine_m lat0 lon0 s.lat s.lon := by
  cases rows with
  | nil => exact absurd rfl h
  | cons x xs =>
      obtain ⟨hmin, pre, post, hsplit, hpre⟩ :=
        pyMinBy_first_min
          (fun r : SampleRow => haversine_m lat0 lon0 r.lat r.lon) xs x
      refine ⟨pyMinBy
          (fun r : SampleRow => haversine_m lat0 lon0 r.lat r.lon) x xs,
        rfl, ?_, hmin, pre, post, hsplit, hpre⟩
      rw [hsplit]
      exact List.mem_append_right pre (List.mem_cons_self _ _)

/-- C7 witness: the theorem applied to target (0, 0) and the singleton
row list `[rowA]`. -/
theorem c7_witness :
    ∃ r, selectNearest 0 0 [rowA] = some r ∧ r ∈ [rowA] ∧
      (∀ s ∈ [rowA], haversine_m 0 0 r.lat r.lon ≤
        haversine_m 0 0 s.lat s.lon) ∧
      ∃ pre post, [rowA] = pre ++ r :: post ∧
        ∀ s ∈ pre, haversine_m 0 0 r.lat r.lon <
          haversine_m 0 0 s.lat s.lon :=
  c7_nearest_row 0 0 [rowA] (List.cons_ne_nil rowA [])

/-! ### Fallback and crash claims about `main` -/

/-- C2 (amended): on total failure — the fetch returns the empty string
or the parse yields no rows — a readable prior artifact is re-persisted
entirely unchanged: every field, including any generation timestamp, is
byte-for-byte that of the prior artifact. -/
theorem c2_fallback_repersists_unchanged (pf : List Char → Option ℝ)
    (resp : Nat → HttpOutcome) (fromS toS : String) (prior : Json)
    (h : (fetch_csv resp).result = [] ∨
      parse_rows pf (fetch_csv resp).result = []) :
    main pf resp fromS toS (.valid prior) = .wrote prior := by
  simp only [main]
  rcases h with h | h
  · rw [h]
    rfl
  · cases hres : (fetch_csv resp).result with
    | nil => rfl
    | cons c cs =>
        rw [hres] at h
        simp only [hres, List.isEmpty_cons, Bool.false_eq_true, if_false, h]
        rfl

/-- C2 counterexample to the claim as stated: with every fetch attempt
answering 404 (no rows obtained) and a prior artifact whose
`generated_at` is 5, the run rewrites the prior artifact verbatim, so
the written `generated_at` equals 5 and is not strictly greater than 5. -/
theorem c2_counterexample :
    main pfUnit all404 "f" "t" (.valid priorArtifact) =
      .wrote priorArtifact ∧
    Json.getField priorArtifact "generated_at" = some (.num 5) ∧
    ¬ (5 : ℝ) < 5 :=
  ⟨rfl, rfl, lt_irrefl 5⟩

/-- C2 witness: the amended theorem applied to the all-404 oracle and the
concrete prior artifact. -/
theorem c2_witness :
    main pfUnit all404 "from0" "to0" (.valid priorArtifact) =
      .wrote priorArtifact :=
  c2_fallback_repersists_unchanged pfUnit all404 "from0" "to0"
    priorArtifact (Or.inl rfl)

/-- C3 (code bug): when no rows are obtained and the prior artifact file
is present but malformed, `json.load` raises `json.JSONDecodeError` —
the `except FileNotFoundError` clause does not catch it — so the run
terminates with an uncaught error and writes no artifact, contradicting
the claim that every run writes exactly one artifact. -/
theorem c3_malformed_prior_crashes :
    main pfUnit all404 "f" "t" .malformed = .crashed := rfl

/-! ### TierEscalator claim (spec-modelled) -/

theorem tierEscalate_first_success (pf : List Char → Option ℝ)
    (transport : QueryParams → Nat → HttpOutcome) (now : Int)
    (lat0 lon0 : ℝ) :
    ∀ (pre : List QueryTier) (t : QueryTier) (post : List QueryTier)
      (lastDiag : Option TierDiag),
      (∀ t2 ∈ pre, rowsFor pf transport now lat0 lon0 t2 = []) →
      rowsFor pf transport now lat0 lon0 t ≠ [] →
      tierEscalate pf transport now lat0 lon0 (pre ++ t :: post) lastDiag =
        (.success (rowsFor pf transport now lat0 lon0 t) t
          (paramsFor now lat0 lon0 t), pre ++ [t]) := by
  intro pre
  induction pre with
  | nil =>
      intro t post lastDiag _ ht
      cases hr : rowsFor pf transport now lat0 lon0 t with
      | nil => exact absurd hr ht
      | cons r rs =>
          have hrw : parse_rows pf
              (fetch_csv (transport (paramsFor now lat0 lon0 t))).result =
              r :: rs := hr
          simp only [List.nil_append, tierEscalate, hrw]
  | cons q pre2 ih =>
      intro t post lastDiag hpre ht
      have hq : parse_rows pf
          (fetch_csv (transport (paramsFor now lat0 lon0 q))).result = [] :=
        hpre q (List.mem_cons_self q pre2)
      simp only [List.cons_append, tierEscalate, hq, List.append_eq]
      rw [ih t post (some ⟨q, paramsFor now lat0 lon0 q⟩)
        (fun t2 h2 => hpre t2 (List.mem_cons.mpr (Or.inr h2))) ht]

theorem tierEscalate_exhaustion (pf : List Char → Option ℝ)
    (transport : QueryParams → Nat → HttpOutcome) (now : Int)
    (lat0 lon0 : ℝ) :
    ∀ (tiers : List QueryTier) (t : QueryTier) (lastDiag : Option TierDiag),
      (∀ t2 ∈ tiers ++ [t], rowsFor pf transport now lat0 lon0 t2 = []) →
      tierEscalate pf transport now lat0 lon0 (tiers ++ [t]) lastDiag =
        (.failure (some ⟨t, paramsFor now lat0 lon0 t⟩), tiers ++ [t]) := by
  intro tiers
  induction tiers with
  | nil =>
      intro t lastDiag hall
      have ht : parse_rows pf
          (fetch_csv (transport (paramsFor now lat0 lon0 t))).result = [] :=
        hall t (List.mem_cons_self t [])
      simp only [List.nil_append, tierEscalate, ht]
  | cons q rest ih =>
      intro t lastDiag hall
      have hq : parse_rows pf
          (fetch_csv (transport (paramsFor now lat0 lon0 q))).result = [] :=
        hall q (List.mem_cons_self q (rest ++ [t]))
      simp only [List.cons_append, tierEscalate, hq, List.append_eq]
      rw [ih t (some ⟨q, paramsFor now lat0 lon0 q⟩)
        (fun t2 h2 => hall t2 (List.mem_cons.mpr (Or.inr h2)))]

/-- C1 (spec-modelled): the TierEscalator tries the declared tier list
strictly in order, each tier queried with `to = floor(now, 1h)`,
`from = to - hoursWindow` and the tier's bounding box (`paramsFor`);
the first tier whose parse yields a non-empty row sequence wins — the
attempted-tier list stops at it, so no later tier is attempted — and
when every tier yields no rows the outcome is a failure carrying the
last attempted tier's diagnostic. -/
theorem c1_tier_escalation :
    (∀ (pf : List Char → Option ℝ)
       (transport : QueryParams → Nat → HttpOutcome) (now : Int)
       (lat0 lon0 : ℝ) (pre : List QueryTier) (t : QueryTier)
       (post : List QueryTier),
       (∀ t2 ∈ pre, rowsFor pf transport now lat0 lon0 t2 = []) →
       rowsFor pf transport now lat0 lon0 t ≠ [] →
       runTiers pf transport now lat0 lon0 (pre ++ t :: post) =
         (.success (rowsFor pf transport now lat0 lon0 t) t
           (paramsFor now lat0 lon0 t), pre ++ [t])) ∧
    (∀ (pf : List Char → Option ℝ)
       (transport : QueryParams → Nat → HttpOutcome) (now : Int)
       (lat0 lon0 : ℝ) (tiers : List QueryTier) (t : QueryTier),
       (∀ t2 ∈ tiers ++ [t], rowsFor pf transport now lat0 lon0 t2 = []) →
       runTiers pf transport now lat0 lon0 (tiers ++ [t]) =
         (.failure (some ⟨t, paramsFor now lat0 lon0 t⟩), tiers ++ [t])) :=
  ⟨fun pf transport now lat0 lon0 pre t post hpre ht =>
     tierEscalate_first_success pf transport now lat0 lon0 pre t post
       none hpre ht,
   fun pf transport now lat0 lon0 tiers t hall =>
     tierEscalate_exhaustion pf transport now lat0 lon0 tiers t none hall⟩

/-- C1 witness: with tiers [(6 h, 24 km), (12 h, 24 km)], the 6-hour
query answering no data and the 12-hour query answering a one-row CSV,
the escalator succeeds on the second tier, having attempted exactly both
tiers in order. -/
theorem c1_witness :
    runTiers pfUnit transportT 0 0 0 [tier6, tier12] =
      (.success (rowsFor pfUnit transportT 0 0 0 tier12) tier12
        (paramsFor 0 0 0 tier12), [tier6, tier12]) :=
  c1_tier_escalation.1 pfUnit transportT 0 0 0 [tier6] tier12 []
    (fun t2 h2 => by
      have ht2 : t2 = tier6 := by simpa using h2
      rw [ht2]
      rfl)
    (fun hcon => List.noConfusion hcon)

end HfPoint
